import Mathlib

/-!
Verification of the wallet-tracker webhook pipeline (`src/api/helius.js`).

This file gives a shallow embedding of the event-filtering / scoring /
cooldown pipeline of the `helius.js` request handler, and proves the
spec claims about it.

Modelling conventions:
* JavaScript numbers are modelled as exact rationals (`ℚ`); the code only
  adds, subtracts, divides by a constant and compares, so no rounding
  behaviour is involved in any claim.
* Loosely-typed event records are modelled as structures with `Option`
  fields; a field that is absent (or whose access path is broken at any
  depth) is `none`.  The JS truthiness idiom `a || b || ""` is modelled by
  `firstTruthy`, which skips both `none` and the empty string.
* Unix time is an `Int` (seconds); one invocation of the handler evaluates
  `nowSec()` at a single instant `now`.
* The outbound webhook call (`fetch`) is modelled by an oracle
  `sink : Nat → SinkResult`, indexed by the number of delivery attempts so
  far.  A non-ok HTTP response is absorbed inside `postToDiscord` (the code
  only logs it); a transport error makes `fetch` reject, which the code does
  not catch inside `postToDiscord`, so it is modelled as `Except.error` and
  propagates to the handler-level catch.
* The module-level cooldown map `lastAlertAt` is an association list
  threaded through the batch state.
-/

/-- One entry of `e.nativeTransfers` (helius.js lines 128-136). -/
structure NativeTransfer where
  fromUserAccount : Option String
  fromAccount : Option String
  toUserAccount : Option String
  toAccount : Option String
  amount : Option ℚ
  deriving DecidableEq

/-- One entry of `e.tokenTransfers` (helius.js lines 146-157, 169-184). -/
structure TokenTransfer where
  mint : Option String
  tokenMint : Option String
  fromUserAccount : Option String
  fromTokenAccount : Option String
  fromAccount : Option String
  toUserAccount : Option String
  toTokenAccount : Option String
  toAccount : Option String
  tokenAmount : Option ℚ
  amount : Option ℚ
  deriving DecidableEq

/-- A raw webhook event.  Nested optional access paths of the JS code are
flattened to one `Option` field each:
`accountDataAccount` is `e?.accountData?.[0]?.account`,
`firstAccountKey` is `e?.transaction?.message?.accountKeys?.[0]`,
`nestedSignature` is `e?.transaction?.signature`.
A transfer list that is absent or not array-shaped is `none`. -/
structure RawEvent where
  type : Option String
  signature : Option String
  transactionSignature : Option String
  nestedSignature : Option String
  feePayer : Option String
  accountDataAccount : Option String
  firstAccountKey : Option String
  nativeTransfers : Option (List NativeTransfer)
  tokenTransfers : Option (List TokenTransfer)
  deriving DecidableEq

/-- The all-fields-absent event `{}`. -/
def emptyEvent : RawEvent :=
  ⟨none, none, none, none, none, none, none, none, none⟩

/-- JS truthiness fallback chain `a || b || ... || dflt` over string options:
the first candidate that is present and non-empty wins. -/
def firstTruthy : List (Option String) → String → String
  | [], dflt => dflt
  | none :: rest, dflt => firstTruthy rest dflt
  | some s :: rest, dflt => if s = "" then firstTruthy rest dflt else s

/-- helius.js lines 110-112: `e?.signature || e?.transactionSignature ||
e?.transaction?.signature || "n/a"`. -/
def extractSignature (e : RawEvent) : String :=
  firstTruthy [e.signature, e.transactionSignature, e.nestedSignature] "n/a"

/-- helius.js lines 114-121: `e?.feePayer || e?.accountData?.[0]?.account ||
e?.transaction?.message?.accountKeys?.[0] || ""`. -/
def extractFeePayer (e : RawEvent) : String :=
  firstTruthy [e.feePayer, e.accountDataAccount, e.firstAccountKey] ""

/-- JS `String.prototype.toUpperCase` on the ASCII event-type labels in
play: uppercase each character. -/
def jsToUpperCase (s : String) : String :=
  String.mk (s.data.map Char.toUpper)

/-- helius.js line 358: `String(e?.type || "UNKNOWN").toUpperCase()`. -/
def normType (e : RawEvent) : String :=
  jsToUpperCase (firstTruthy [e.type] "UNKNOWN")

/-- helius.js lines 124-139 (`computeNetSol`): net lamports for the wallet
over `nativeTransfers`, divided by `1_000_000_000`. -/
def computeNetSol (e : RawEvent) (wallet : String) : ℚ :=
  let nativeTransfers := e.nativeTransfers.getD []
  let lamports := nativeTransfers.foldl (fun acc t =>
    let src := firstTruthy [t.fromUserAccount, t.fromAccount] ""
    let dst := firstTruthy [t.toUserAccount, t.toAccount] ""
    let amt := t.amount.getD 0
    if amt = 0 then acc
    else
      let acc1 := if src = wallet then acc - amt else acc
      if dst = wallet then acc1 + amt else acc1) 0
  lamports / 1000000000

/-- The amount of a token transfer, JS `Number(t?.tokenAmount ?? t?.amount ?? 0)`
(nullish coalescing: a present `0` is kept). -/
def tokenTransferAmt (t : TokenTransfer) : ℚ :=
  match t.tokenAmount with
  | some a => a
  | none => t.amount.getD 0

/-- helius.js lines 142-160 (`computeNetStable`): net movement over token
transfers whose mint is in the stable-mint allow-set. -/
def computeNetStable (stableMints : List String) (e : RawEvent) (wallet : String) : ℚ :=
  let tokenTransfers := e.tokenTransfers.getD []
  tokenTransfers.foldl (fun acc t =>
    let mint := firstTruthy [t.mint, t.tokenMint] ""
    if ¬ stableMints.contains mint then acc
    else
      let src := firstTruthy [t.fromUserAccount, t.fromTokenAccount, t.fromAccount] ""
      let dst := firstTruthy [t.toUserAccount, t.toTokenAccount, t.toAccount] ""
      let amt := tokenTransferAmt t
      if amt = 0 then acc
      else
        let acc1 := if src = wallet then acc - amt else acc
        if dst = wallet then acc1 + amt else acc1) 0

/-- A `{ mint, amt }` record as built by `summarizeTokenLegs`. -/
structure TokenLeg where
  mint : String
  amt : ℚ
  deriving DecidableEq

/-- helius.js lines 163-187 (`summarizeTokenLegs`): the largest single token
transfer into the wallet and out of the wallet, strict `>` so ties keep the
first-seen record; a self-transfer updates both sides. -/
def summarizeTokenLegs (e : RawEvent) (wallet : String) :
    Option TokenLeg × Option TokenLeg :=
  let tokenTransfers := e.tokenTransfers.getD []
  tokenTransfers.foldl (fun acc t =>
    let mint := firstTruthy [t.mint, t.tokenMint] ""
    if mint = "" then acc
    else
      let src := firstTruthy [t.fromUserAccount, t.fromTokenAccount, t.fromAccount] ""
      let dst := firstTruthy [t.toUserAccount, t.toTokenAccount, t.toAccount] ""
      let amt := tokenTransferAmt t
      if amt = 0 then acc
      else
        let bIn := if dst = wallet then
            match acc.1 with
            | none => some ⟨mint, amt⟩
            | some b => if amt > b.amt then some ⟨mint, amt⟩ else some b
          else acc.1
        let bOut := if src = wallet then
            match acc.2 with
            | none => some ⟨mint, amt⟩
            | some b => if amt > b.amt then some ⟨mint, amt⟩ else some b
          else acc.2
        (bIn, bOut)) (none, none)

/-- helius.js lines 194-199: the additive SOL-magnitude band ladder of
`scoreEvent`. -/
def scoreSolBands (netSol : ℚ) : Nat :=
  let s := |netSol|
  (if s ≥ 0.25 then 1 else 0) + (if s ≥ 0.75 then 2 else 0) +
    (if s ≥ 1.5 then 3 else 0) + (if s ≥ 3 then 4 else 0) +
    (if s ≥ 7 then 6 else 0)

/-- helius.js lines 202-206: the additive stable-magnitude band ladder of
`scoreEvent`. -/
def scoreStableBands (netStable : ℚ) : Nat :=
  let u := |netStable|
  (if u ≥ 25 then 1 else 0) + (if u ≥ 100 then 2 else 0) +
    (if u ≥ 250 then 3 else 0) + (if u ≥ 1000 then 5 else 0)

/-- helius.js lines 209-211 and 379-382: `max(|biggestIn.amt|, |biggestOut.amt|)`
with an absent leg read as 0. -/
def biggestLegAmt (biggestIn biggestOut : Option TokenLeg) : ℚ :=
  max (|(match biggestIn with | some b => b.amt | none => 0)|)
    (|(match biggestOut with | some b => b.amt | none => 0)|)

/-- helius.js lines 209-215: the token-leg band ladder of `scoreEvent`,
including the flat `+1` for any non-zero leg. -/
def scoreLegBands (biggestIn biggestOut : Option TokenLeg) : Nat :=
  let leg := biggestLegAmt biggestIn biggestOut
  (if leg > 0 then 1 else 0) + (if leg ≥ 1000 then 1 else 0) +
    (if leg ≥ 100000 then 2 else 0) + (if leg ≥ 1000000 then 3 else 0)

/-- helius.js lines 190-218 (`scoreEvent`): the three band ladders summed. -/
def scoreEvent (netSol netStable : ℚ) (biggestIn biggestOut : Option TokenLeg) : Nat :=
  scoreSolBands netSol + scoreStableBands netStable +
    scoreLegBands biggestIn biggestOut

/-- `Map.get` on the association-list model of the cooldown map. -/
def mapGet : List (String × Int) → String → Option Int
  | [], _ => none
  | (k1, v1) :: rest, k => if k1 = k then some v1 else mapGet rest k

/-- `Map.set` on the association-list model of the cooldown map. -/
def mapSet : List (String × Int) → String → Int → List (String × Int)
  | [], k, v => [(k, v)]
  | (k1, v1) :: rest, k, v =>
    if k1 = k then (k, v) :: rest else (k1, v1) :: mapSet rest k v

/-- helius.js lines 225-229 (`isCoolingDown`): no suppression when the window
is ≤ 0; otherwise a missing record is read as timestamp 0 by
`lastAlertAt.get(wallet) || 0`. -/
def isCoolingDown (cooldownSeconds : Int) (lastAlertAt : List (String × Int))
    (wallet : String) (now : Int) : Bool :=
  if cooldownSeconds ≤ 0 then false
  else decide (now - ((mapGet lastAlertAt wallet).getD 0) < cooldownSeconds)

/-- helius.js lines 230-232 (`markAlert`): unconditional overwrite of the
stored timestamp. -/
def markAlert (lastAlertAt : List (String × Int)) (wallet : String) (now : Int) :
    List (String × Int) :=
  mapSet lastAlertAt wallet now

/-- Outcome of one outbound webhook delivery attempt. -/
inductive SinkResult where
  | ok
  | httpFail
  | transportError
  deriving DecidableEq

/-- helius.js lines 92-108 (`postToDiscord`): a missing webhook URL returns
early; a non-ok HTTP response is only logged; a rejected `fetch` (transport
error) is not caught and the rejection propagates to the caller. -/
def postToDiscord (webhookUrl : String) (r : SinkResult) : Except Unit Unit :=
  if webhookUrl = "" then Except.ok ()
  else
    match r with
    | SinkResult.transportError => Except.error ()
    | _ => Except.ok ()

/-- Configuration consumed by the handler (helius.js lines 9-38) together
with the watch-list set loaded by `loadWalletsCached` (an external
collaborator, §6 of the spec). -/
structure Config where
  alertTypes : List String
  minSol : ℚ
  minStable : ℚ
  minTokenLeg : ℚ
  cooldownSeconds : Int
  maxAlertsPerRequest : Nat
  stableMints : List String
  webhookUrl : String
  tracked : List String
  deriving DecidableEq

/-- The decision-relevant content of one composed and attempted alert
(the cosmetic embed fields of `buildTelegramStyleEmbed` are out of scope,
spec §4.7: formatting only). -/
structure Alert where
  feePayer : String
  actionLabel : String
  netSol : ℚ
  netStable : ℚ
  biggestIn : Option TokenLeg
  biggestOut : Option TokenLeg
  score : Nat
  signature : String
  deriving DecidableEq

/-- Batch-orchestrator state: the six diagnostic counters, the module-level
cooldown map, the alerts attempted so far, and the number of webhook
delivery attempts (used to index the sink oracle). -/
structure HState where
  received : Nat
  matchedType : Nat
  matchedTracked : Nat
  cooled : Nat
  filtered : Nat
  sent : Nat
  lastAlertAt : List (String × Int)
  alerts : List Alert
  attempts : Nat
  deriving DecidableEq

/-- Result of processing one event of the batch: go to the next event,
break out of the loop (cap reached), or propagate an exception to the
handler-level catch. -/
inductive StepResult where
  | next (st : HState)
  | stop (st : HState)
  | aborted (st : HState)
  deriving DecidableEq

/-- The state carried by any step result. -/
def StepResult.state : StepResult → HState
  | .next st => st
  | .stop st => st
  | .aborted st => st

/-- helius.js lines 376-377: native/stable triggers, `0` (or negative)
threshold always passes. -/
def triggersSol (cfg : Config) (netSol : ℚ) : Bool :=
  if cfg.minSol > 0 then decide (|netSol| ≥ cfg.minSol) else true

/-- helius.js line 377. -/
def triggersStable (cfg : Config) (netStable : ℚ) : Bool :=
  if cfg.minStable > 0 then decide (|netStable| ≥ cfg.minStable) else true

/-- helius.js lines 379-383: the token-leg trigger on
`max(|biggestIn.amt|, |biggestOut.amt|)`. -/
def triggersTokenLeg (cfg : Config) (biggestIn biggestOut : Option TokenLeg) : Bool :=
  if cfg.minTokenLeg > 0 then decide (biggestLegAmt biggestIn biggestOut ≥ cfg.minTokenLeg)
  else true

/-- helius.js line 385: admission is the OR of the three triggers
(the code suppresses exactly when all three are false). -/
def eventTriggers (cfg : Config) (netSol netStable : ℚ)
    (biggestIn biggestOut : Option TokenLeg) : Bool :=
  triggersSol cfg netSol || triggersStable cfg netStable ||
    triggersTokenLeg cfg biggestIn biggestOut

/-- Static alert-admissibility of an event (type filter, tracked-actor
filter, trigger evaluation — everything except the state-dependent
cooldown gate). -/
def admissible (cfg : Config) (e : RawEvent) : Bool :=
  cfg.alertTypes.contains (normType e) &&
    (extractFeePayer e ≠ "" && cfg.tracked.contains (extractFeePayer e)) &&
    eventTriggers cfg (computeNetSol e (extractFeePayer e))
      (computeNetStable cfg.stableMints e (extractFeePayer e))
      (summarizeTokenLegs e (extractFeePayer e)).1
      (summarizeTokenLegs e (extractFeePayer e)).2

/-- One iteration of the handler loop, helius.js lines 357-438. -/
def processEvent (cfg : Config) (now : Int) (sink : Nat → SinkResult)
    (st : HState) (e : RawEvent) : StepResult :=
  if ¬ cfg.alertTypes.contains (normType e) then StepResult.next st else
  let st1 := { st with matchedType := st.matchedType + 1 }
  let feePayer := extractFeePayer e
  if feePayer = "" ∨ ¬ cfg.tracked.contains feePayer then StepResult.next st1 else
  let st2 := { st1 with matchedTracked := st1.matchedTracked + 1 }
  if isCoolingDown cfg.cooldownSeconds st2.lastAlertAt feePayer now then
    StepResult.next { st2 with cooled := st2.cooled + 1 }
  else
  let netSol := computeNetSol e feePayer
  let netStable := computeNetStable cfg.stableMints e feePayer
  let legs := summarizeTokenLegs e feePayer
  if ¬ eventTriggers cfg netSol netStable legs.1 legs.2 then
    StepResult.next { st2 with filtered := st2.filtered + 1 }
  else
  let sig := extractSignature e
  let actionLabel := if netSol < 0 then "BUY" else if netSol > 0 then "SELL" else "SWAP"
  let score := scoreEvent netSol netStable legs.1 legs.2
  match postToDiscord cfg.webhookUrl (sink st2.attempts) with
  | Except.error _ => StepResult.aborted { st2 with attempts := st2.attempts + 1 }
  | Except.ok _ =>
    let st3 := { st2 with
      attempts := st2.attempts + 1,
      alerts := st2.alerts ++ [⟨feePayer, actionLabel, netSol, netStable, legs.1, legs.2, score, sig⟩],
      lastAlertAt := markAlert st2.lastAlertAt feePayer now,
      sent := st2.sent + 1 }
    if st3.sent ≥ cfg.maxAlertsPerRequest then StepResult.stop st3
    else StepResult.next st3

/-- Outcome of one batch: the handler returns the counter line (ok) or the
handler-level catch fires and a 500 is returned (err).  In both cases the
carried state records the module-level cooldown map as left behind. -/
inductive BatchResult where
  | ok (st : HState)
  | err (st : HState)
  deriving DecidableEq

/-- The state carried by a batch result. -/
def BatchResult.state : BatchResult → HState
  | .ok st => st
  | .err st => st

/-- The `for (const e of events)` loop of the handler. -/
def runEvents (cfg : Config) (now : Int) (sink : Nat → SinkResult) :
    HState → List RawEvent → BatchResult
  | st, [] => BatchResult.ok st
  | st, e :: es =>
    match processEvent cfg now sink st e with
    | StepResult.next st1 => runEvents cfg now sink st1 es
    | StepResult.stop st1 => BatchResult.ok st1
    | StepResult.aborted st1 => BatchResult.err st1

/-- Counters zeroed and `received = events.length` (helius.js line 355),
starting from the module-level cooldown map `m`. -/
def initState (events : List RawEvent) (m : List (String × Int)) : HState :=
  ⟨events.length, 0, 0, 0, 0, 0, m, [], 0⟩

/-- The whole batch run of the handler (helius.js lines 333-449) for an
already-parsed, already-authorized POST with event list `events`. -/
def processBatch (cfg : Config) (now : Int) (sink : Nat → SinkResult)
    (m : List (String × Int)) (events : List RawEvent) : BatchResult :=
  runEvents cfg now sink (initState events m) events

/-! ## Spec-side reference definitions

These follow the wording of the spec (§4.3), to be compared with the
source-translated folds above. -/

/-- Spec §4.3: the native delta before subdivision, as a plain sum of signed
contributions: `+amount` when `to = subject`, `-amount` when
`from = subject` (a zero-amount transfer contributes zero either way). -/
def netSolSpecLamports (e : RawEvent) (wallet : String) : ℚ :=
  ((e.nativeTransfers.getD []).map (fun t =>
    let src := firstTruthy [t.fromUserAccount, t.fromAccount] ""
    let dst := firstTruthy [t.toUserAccount, t.toAccount] ""
    let amt := t.amount.getD 0
    (if dst = wallet then amt else 0) - (if src = wallet then amt else 0))).sum

/-- Projection of one fungible transfer to its inbound-leg candidate:
non-empty mint, non-zero amount, `to = subject` — with no restriction on
asset class. -/
def inLegProj (wallet : String) (t : TokenTransfer) : Option TokenLeg :=
  let mint := firstTruthy [t.mint, t.tokenMint] ""
  let dst := firstTruthy [t.toUserAccount, t.toTokenAccount, t.toAccount] ""
  let amt := tokenTransferAmt t
  if mint = "" then none
  else if amt = 0 then none
  else if dst = wallet then some ⟨mint, amt⟩ else none

/-- Projection of one fungible transfer to its outbound-leg candidate:
`from = subject`. -/
def outLegProj (wallet : String) (t : TokenTransfer) : Option TokenLeg :=
  let mint := firstTruthy [t.mint, t.tokenMint] ""
  let src := firstTruthy [t.fromUserAccount, t.fromTokenAccount, t.fromAccount] ""
  let amt := tokenTransferAmt t
  if mint = "" then none
  else if amt = 0 then none
  else if src = wallet then some ⟨mint, amt⟩ else none

/-- The fungible transfers of the event that are candidates for the largest
inbound leg. -/
def inCandidates (e : RawEvent) (wallet : String) : List TokenLeg :=
  (e.tokenTransfers.getD []).filterMap (inLegProj wallet)

/-- The fungible transfers of the event that are candidates for the largest
outbound leg. -/
def outCandidates (e : RawEvent) (wallet : String) : List TokenLeg :=
  (e.tokenTransfers.getD []).filterMap (outLegProj wallet)

/-- Spec §4.3: the single candidate with the largest amount, ties keeping the
first-seen record (an earlier record is replaced only by a strictly larger
later one). -/
def firstMax : List TokenLeg → Option TokenLeg
  | [] => none
  | l :: ls =>
    match firstMax ls with
    | none => some l
    | some m => if m.amt > l.amt then some m else some l

/-- Combine an earlier best (`a`) with a later best (`b`): the later one wins
only when strictly larger. -/
def mergeOpt (a b : Option TokenLeg) : Option TokenLeg :=
  match a, b with
  | none, b => b
  | some x, none => some x
  | some x, some y => if y.amt > x.amt then some y else some x

/-! ## Concrete fixtures used by scenarios, witnesses and counterexamples -/

/-- A delivery oracle that always succeeds. -/
def sinkOk : Nat → SinkResult := fun _ => SinkResult.ok

/-- A delivery oracle whose every attempt is a non-success HTTP response. -/
def sinkHttpFail : Nat → SinkResult := fun _ => SinkResult.httpFail

/-- A delivery oracle whose every attempt is a transport error
(`fetch` rejects). -/
def sinkTransport : Nat → SinkResult := fun _ => SinkResult.transportError

/-- The deployed default configuration (helius.js lines 9-36) with wallet
`"W1"` tracked. -/
def cfgW : Config :=
  { alertTypes := ["SWAP"]
    minSol := 0.25
    minStable := 25
    minTokenLeg := 0
    cooldownSeconds := 30
    maxAlertsPerRequest := 8
    stableMints := ["EPjFWdd5AufqSSqeM2qN1xzybapC8G4wEGGkZwyTDt1v",
      "Es9vMFrzaCERmJfrF4H2FYD4KCoNkY11McCe8BenwNYB"]
    webhookUrl := "https://discord.example/webhook"
    tracked := ["W1"] }

/-- The spec §8 scenario event: `{type:"SWAP", actor:"W1",
nativeTransfers:[{from:"W1", to:"X", amount: 2_000_000_000}]}`. -/
def evW1 : RawEvent :=
  { emptyEvent with
    type := some "SWAP"
    feePayer := some "W1"
    nativeTransfers := some [⟨some "W1", none, some "X", none, some 2000000000⟩] }

/-- The spec §8 self-transfer scenario event: the sole fungible transfer is
`{from:"W1", to:"W1", amount: 100}` on mint `"M"`. -/
def evSelf : RawEvent :=
  { emptyEvent with
    type := some "SWAP"
    feePayer := some "W1"
    tokenTransfers :=
      some [⟨some "M", none, some "W1", none, none, some "W1", none, none, some 100, none⟩] }

/-! ## Branch lemmas for one handler-loop iteration -/

theorem processEvent_type_skip (cfg : Config) (now : Int) (sink : Nat → SinkResult)
    (st : HState) (e : RawEvent)
    (h : cfg.alertTypes.contains (normType e) = false) :
    processEvent cfg now sink st e = StepResult.next st := by
  have h' : normType e ∉ cfg.alertTypes := by simpa using h
  simp [processEvent, h']

theorem processEvent_untracked (cfg : Config) (now : Int) (sink : Nat → SinkResult)
    (st : HState) (e : RawEvent)
    (h1 : cfg.alertTypes.contains (normType e) = true)
    (h2 : extractFeePayer e = "" ∨ cfg.tracked.contains (extractFeePayer e) = false) :
    processEvent cfg now sink st e =
      StepResult.next { st with matchedType := st.matchedType + 1 } := by
  have h1' : normType e ∈ cfg.alertTypes := by simpa using h1
  rcases h2 with h2 | h2
  · simp [processEvent, h1', h2]
  · have h2' : extractFeePayer e ∉ cfg.tracked := by simpa using h2
    simp [processEvent, h1', h2']

theorem processEvent_cooled (cfg : Config) (now : Int) (sink : Nat → SinkResult)
    (st : HState) (e : RawEvent)
    (h1 : cfg.alertTypes.contains (normType e) = true)
    (h2a : extractFeePayer e ≠ "")
    (h2b : cfg.tracked.contains (extractFeePayer e) = true)
    (hc : isCoolingDown cfg.cooldownSeconds st.lastAlertAt (extractFeePayer e) now = true) :
    processEvent cfg now sink st e =
      StepResult.next { st with
        matchedType := st.matchedType + 1,
        matchedTracked := st.matchedTracked + 1,
        cooled := st.cooled + 1 } := by
  have h1' : normType e ∈ cfg.alertTypes := by simpa using h1
  have h2b' : extractFeePayer e ∈ cfg.tracked := by simpa using h2b
  simp [processEvent, h1', h2a, h2b', hc]

theorem processEvent_filtered (cfg : Config) (now : Int) (sink : Nat → SinkResult)
    (st : HState) (e : RawEvent)
    (h1 : cfg.alertTypes.contains (normType e) = true)
    (h2a : extractFeePayer e ≠ "")
    (h2b : cfg.tracked.contains (extractFeePayer e) = true)
    (hc : isCoolingDown cfg.cooldownSeconds st.lastAlertAt (extractFeePayer e) now = false)
    (ht : eventTriggers cfg (computeNetSol e (extractFeePayer e))
      (computeNetStable cfg.stableMints e (extractFeePayer e))
      (summarizeTokenLegs e (extractFeePayer e)).1
      (summarizeTokenLegs e (extractFeePayer e)).2 = false) :
    processEvent cfg now sink st e =
      StepResult.next { st with
        matchedType := st.matchedType + 1,
        matchedTracked := st.matchedTracked + 1,
        filtered := st.filtered + 1 } := by
  have h1' : normType e ∈ cfg.alertTypes := by simpa using h1
  have h2b' : extractFeePayer e ∈ cfg.tracked := by simpa using h2b
  simp [processEvent, h1', h2a, h2b', hc, ht]

theorem processEvent_abort (cfg : Config) (now : Int) (sink : Nat → SinkResult)
    (st : HState) (e : RawEvent)
    (h1 : cfg.alertTypes.contains (normType e) = true)
    (h2a : extractFeePayer e ≠ "")
    (h2b : cfg.tracked.contains (extractFeePayer e) = true)
    (hc : isCoolingDown cfg.cooldownSeconds st.lastAlertAt (extractFeePayer e) now = false)
    (ht : eventTriggers cfg (computeNetSol e (extractFeePayer e))
      (computeNetStable cfg.stableMints e (extractFeePayer e))
      (summarizeTokenLegs e (extractFeePayer e)).1
      (summarizeTokenLegs e (extractFeePayer e)).2 = true)
    (hpost : postToDiscord cfg.webhookUrl (sink st.attempts) = Except.error ()) :
    processEvent cfg now sink st e =
      StepResult.aborted { st with
        matchedType := st.matchedType + 1,
        matchedTracked := st.matchedTracked + 1,
        attempts := st.attempts + 1 } := by
  have h1' : normType e ∈ cfg.alertTypes := by simpa using h1
  have h2b' : extractFeePayer e ∈ cfg.tracked := by simpa using h2b
  simp [processEvent, h1', h2a, h2b', hc, ht, hpost]

theorem processEvent_emit (cfg : Config) (now : Int) (sink : Nat → SinkResult)
    (st : HState) (e : RawEvent)
    (h1 : cfg.alertTypes.contains (normType e) = true)
    (h2a : extractFeePayer e ≠ "")
    (h2b : cfg.tracked.contains (extractFeePayer e) = true)
    (hc : isCoolingDown cfg.cooldownSeconds st.lastAlertAt (extractFeePayer e) now = false)
    (ht : eventTriggers cfg (computeNetSol e (extractFeePayer e))
      (computeNetStable cfg.stableMints e (extractFeePayer e))
      (summarizeTokenLegs e (extractFeePayer e)).1
      (summarizeTokenLegs e (extractFeePayer e)).2 = true)
    (hpost : postToDiscord cfg.webhookUrl (sink st.attempts) = Except.ok ()) :
    ∃ st3 : HState,
      processEvent cfg now sink st e =
        (if st.sent + 1 ≥ cfg.maxAlertsPerRequest then StepResult.stop st3
         else StepResult.next st3) ∧
      st3.received = st.received ∧
      st3.matchedType = st.matchedType + 1 ∧
      st3.matchedTracked = st.matchedTracked + 1 ∧
      st3.cooled = st.cooled ∧
      st3.filtered = st.filtered ∧
      st3.sent = st.sent + 1 ∧
      st3.lastAlertAt = markAlert st.lastAlertAt (extractFeePayer e) now ∧
      (∃ a : Alert, a.feePayer = extractFeePayer e ∧ st3.alerts = st.alerts ++ [a]) ∧
      st3.attempts = st.attempts + 1 := by
  have h1' : normType e ∈ cfg.alertTypes := by simpa using h1
  have h2b' : extractFeePayer e ∈ cfg.tracked := by simpa using h2b
  refine ⟨{ st with
      matchedType := st.matchedType + 1,
      matchedTracked := st.matchedTracked + 1,
      sent := st.sent + 1,
      lastAlertAt := markAlert st.lastAlertAt (extractFeePayer e) now,
      alerts := st.alerts ++
        [⟨extractFeePayer e,
          (if computeNetSol e (extractFeePayer e) < 0 then "BUY"
           else if computeNetSol e (extractFeePayer e) > 0 then "SELL" else "SWAP"),
          computeNetSol e (extractFeePayer e),
          computeNetStable cfg.stableMints e (extractFeePayer e),
          (summarizeTokenLegs e (extractFeePayer e)).1,
          (summarizeTokenLegs e (extractFeePayer e)).2,
          scoreEvent (computeNetSol e (extractFeePayer e))
            (computeNetStable cfg.stableMints e (extractFeePayer e))
            (summarizeTokenLegs e (extractFeePayer e)).1
            (summarizeTokenLegs e (extractFeePayer e)).2,
          extractSignature e⟩],
      attempts := st.attempts + 1 }, ?_, rfl, rfl, rfl, rfl, rfl, rfl, rfl, ⟨_, rfl, rfl⟩, rfl⟩
  simp [processEvent, h1', h2a, h2b', hc, ht, hpost]

theorem postToDiscord_ok (webhookUrl : String) (r : SinkResult)
    (h : r ≠ SinkResult.transportError) :
    postToDiscord webhookUrl r = Except.ok () := by
  cases r <;> simp_all [postToDiscord]

theorem admissible_decomp (cfg : Config) (e : RawEvent)
    (h : admissible cfg e = true) :
    cfg.alertTypes.contains (normType e) = true ∧ extractFeePayer e ≠ "" ∧
      cfg.tracked.contains (extractFeePayer e) = true ∧
      eventTriggers cfg (computeNetSol e (extractFeePayer e))
        (computeNetStable cfg.stableMints e (extractFeePayer e))
        (summarizeTokenLegs e (extractFeePayer e)).1
        (summarizeTokenLegs e (extractFeePayer e)).2 = true := by
  simp only [admissible, Bool.and_eq_true, decide_eq_true_eq] at h
  exact ⟨h.1.1, h.1.2.1, h.1.2.2, h.2⟩

theorem processEvent_skip (cfg : Config) (now : Int) (sink : Nat → SinkResult)
    (st : HState) (e : RawEvent)
    (hadm : admissible cfg e = false)
    (hcool : isCoolingDown cfg.cooldownSeconds st.lastAlertAt (extractFeePayer e) now = false) :
    ∃ st1, processEvent cfg now sink st e = StepResult.next st1 ∧
      st1.received = st.received ∧ st1.sent = st.sent ∧ st1.alerts = st.alerts ∧
      st1.lastAlertAt = st.lastAlertAt ∧ st1.attempts = st.attempts := by
  by_cases h1 : cfg.alertTypes.contains (normType e) = true
  · by_cases h2a : extractFeePayer e = ""
    · exact ⟨_, processEvent_untracked cfg now sink st e h1 (Or.inl h2a),
        rfl, rfl, rfl, rfl, rfl⟩
    · by_cases h2b : cfg.tracked.contains (extractFeePayer e) = true
      · have ht : eventTriggers cfg (computeNetSol e (extractFeePayer e))
            (computeNetStable cfg.stableMints e (extractFeePayer e))
            (summarizeTokenLegs e (extractFeePayer e)).1
            (summarizeTokenLegs e (extractFeePayer e)).2 = false := by
          cases hx : eventTriggers cfg (computeNetSol e (extractFeePayer e))
            (computeNetStable cfg.stableMints e (extractFeePayer e))
            (summarizeTokenLegs e (extractFeePayer e)).1
            (summarizeTokenLegs e (extractFeePayer e)).2
          · rfl
          · exfalso
            have : admissible cfg e = true := by
              simp only [admissible, Bool.and_eq_true, decide_eq_true_eq]
              exact ⟨⟨h1, h2a, h2b⟩, hx⟩
            simp [this] at hadm
        exact ⟨_, processEvent_filtered cfg now sink st e h1 h2a h2b hcool ht,
          rfl, rfl, rfl, rfl, rfl⟩
      · have h2b' : cfg.tracked.contains (extractFeePayer e) = false := by
          cases hb : cfg.tracked.contains (extractFeePayer e) <;> simp_all
        exact ⟨_, processEvent_untracked cfg now sink st e h1 (Or.inr h2b'),
          rfl, rfl, rfl, rfl, rfl⟩
  · have h1' : cfg.alertTypes.contains (normType e) = false := by
      cases hb : cfg.alertTypes.contains (normType e) <;> simp_all
    exact ⟨_, processEvent_type_skip cfg now sink st e h1', rfl, rfl, rfl, rfl, rfl⟩

/-- The two counter relations that C10 asserts about every batch. -/
def CounterInv (st : HState) : Prop :=
  st.matchedTracked ≤ st.matchedType ∧
    st.matchedTracked = st.cooled + st.filtered + st.sent

theorem processEvent_inv (cfg : Config) (now : Int) (sink : Nat → SinkResult)
    (st : HState) (e : RawEvent) (st1 : HState)
    (h : processEvent cfg now sink st e = StepResult.next st1 ∨
      processEvent cfg now sink st e = StepResult.stop st1)
    (hinv : CounterInv st) :
    CounterInv st1 ∧ st1.received = st.received ∧
      st1.matchedType ≤ st.matchedType + 1 ∧
      (st1.sent = st.sent ∨
        (st1.sent = st.sent + 1 ∧
          (processEvent cfg now sink st e = StepResult.stop st1 ∨
            st1.sent < cfg.maxAlertsPerRequest))) := by
  obtain ⟨hi1, hi2⟩ := hinv
  by_cases h1 : cfg.alertTypes.contains (normType e) = true
  · by_cases h2a : extractFeePayer e = ""
    · have he := processEvent_untracked cfg now sink st e h1 (Or.inl h2a)
      rw [he] at h
      rcases h with h | h
      · cases h
        exact ⟨⟨by simpa using Nat.le_succ_of_le hi1, hi2⟩, rfl, le_refl _, Or.inl rfl⟩
      · cases h
    · by_cases h2b : cfg.tracked.contains (extractFeePayer e) = true
      · by_cases hc : isCoolingDown cfg.cooldownSeconds st.lastAlertAt (extractFeePayer e) now = true
        · have he := processEvent_cooled cfg now sink st e h1 h2a h2b hc
          rw [he] at h
          rcases h with h | h
          · cases h
            refine ⟨⟨by simp; omega, by simp; omega⟩, rfl, le_refl _, Or.inl rfl⟩
          · cases h
        · have hc' : isCoolingDown cfg.cooldownSeconds st.lastAlertAt (extractFeePayer e) now = false := by
            cases hb : isCoolingDown cfg.cooldownSeconds st.lastAlertAt (extractFeePayer e) now <;> simp_all
          by_cases ht : eventTriggers cfg (computeNetSol e (extractFeePayer e))
              (computeNetStable cfg.stableMints e (extractFeePayer e))
              (summarizeTokenLegs e (extractFeePayer e)).1
              (summarizeTokenLegs e (extractFeePayer e)).2 = true
          · cases hp : postToDiscord cfg.webhookUrl (sink st.attempts) with
            | error u =>
              cases u
              have he := processEvent_abort cfg now sink st e h1 h2a h2b hc' ht hp
              rw [he] at h
              rcases h with h | h <;> cases h
            | ok u =>
              cases u
              obtain ⟨st3, he, hrec, hmt, hmtr, hcl, hfl, hsent, hla, hal, hat⟩ :=
                processEvent_emit cfg now sink st e h1 h2a h2b hc' ht hp
              rw [he] at h
              by_cases hcap : st.sent + 1 ≥ cfg.maxAlertsPerRequest
              · rw [if_pos hcap] at h
                rcases h with h | h
                · cases h
                · cases h
                  refine ⟨⟨by omega, by omega⟩, hrec, by omega, Or.inr ⟨hsent, Or.inl ?_⟩⟩
                  rw [he, if_pos hcap]
              · rw [if_neg hcap] at h
                rcases h with h | h
                · cases h
                  refine ⟨⟨by omega, by omega⟩, hrec, by omega, Or.inr ⟨hsent, Or.inr ?_⟩⟩
                  omega
                · cases h
          · have ht' : eventTriggers cfg (computeNetSol e (extractFeePayer e))
                (computeNetStable cfg.stableMints e (extractFeePayer e))
                (summarizeTokenLegs e (extractFeePayer e)).1
                (summarizeTokenLegs e (extractFeePayer e)).2 = false := by
              cases hb : eventTriggers cfg (computeNetSol e (extractFeePayer e))
                (computeNetStable cfg.stableMints e (extractFeePayer e))
                (summarizeTokenLegs e (extractFeePayer e)).1
                (summarizeTokenLegs e (extractFeePayer e)).2 <;> simp_all
            have he := processEvent_filtered cfg now sink st e h1 h2a h2b hc' ht'
            rw [he] at h
            rcases h with h | h
            · cases h
              refine ⟨⟨by simp; omega, by simp; omega⟩, rfl, le_refl _, Or.inl rfl⟩
            · cases h
      · have h2b' : cfg.tracked.contains (extractFeePayer e) = false := by
          cases hb : cfg.tracked.contains (extractFeePayer e) <;> simp_all
        have he := processEvent_untracked cfg now sink st e h1 (Or.inr h2b')
        rw [he] at h
        rcases h with h | h
        · cases h
          exact ⟨⟨by simpa using Nat.le_succ_of_le hi1, hi2⟩, rfl, le_refl _, Or.inl rfl⟩
        · cases h
  · have h1' : cfg.alertTypes.contains (normType e) = false := by
      cases hb : cfg.alertTypes.contains (normType e) <;> simp_all
    have he := processEvent_type_skip cfg now sink st e h1'
    rw [he] at h
    rcases h with h | h
    · cases h
      exact ⟨⟨hi1, hi2⟩, rfl, Nat.le_succ _, Or.inl rfl⟩
    · cases h

theorem runEvents_inv (cfg : Config) (now : Int) (sink : Nat → SinkResult) :
    ∀ (es : List RawEvent) (st st1 : HState),
    runEvents cfg now sink st es = BatchResult.ok st1 →
    CounterInv st →
    (st.sent < cfg.maxAlertsPerRequest ∨ st.sent = 0) →
    CounterInv st1 ∧ st1.received = st.received ∧
      st1.matchedType ≤ st.matchedType + es.length ∧
      st1.sent ≤ max cfg.maxAlertsPerRequest 1 := by
  intro es
  induction es with
  | nil =>
    intro st st1 h hinv hsent
    simp only [runEvents, BatchResult.ok.injEq] at h
    subst h
    exact ⟨hinv, rfl, by simp, by omega⟩
  | cons e es ih =>
    intro st st1 h hinv hsent
    simp only [runEvents] at h
    cases hp : processEvent cfg now sink st e with
    | next st2 =>
      rw [hp] at h
      obtain ⟨hinv2, hrec2, hmt2, hsent2⟩ :=
        processEvent_inv cfg now sink st e st2 (Or.inl hp) hinv
      have hsent2' : st2.sent < cfg.maxAlertsPerRequest ∨ st2.sent = 0 := by
        rcases hsent2 with hq | ⟨hq, hr⟩
        · omega
        · rcases hr with hr | hr
          · rw [hp] at hr
            cases hr
          · exact Or.inl hr
      obtain ⟨hinvf, hrecf, hmtf, hsentf⟩ := ih st2 st1 h hinv2 hsent2'
      refine ⟨hinvf, by omega, by simp; omega, hsentf⟩
    | stop st2 =>
      rw [hp] at h
      simp only [BatchResult.ok.injEq] at h
      subst h
      obtain ⟨hinv2, hrec2, hmt2, hsent2⟩ :=
        processEvent_inv cfg now sink st e st2 (Or.inr hp) hinv
      refine ⟨hinv2, hrec2, by simp; omega, ?_⟩
      rcases hsent2 with hq | ⟨hq, _⟩ <;> omega
    | aborted st2 =>
      rw [hp] at h
      cases h

theorem isCoolingDown_off (cooldownSeconds : Int) (m : List (String × Int))
    (wallet : String) (now : Int) (h : cooldownSeconds ≤ 0) :
    isCoolingDown cooldownSeconds m wallet now = false := by
  simp [isCoolingDown, h]

theorem runEvents_cap (cfg : Config) (now : Int) (sink : Nat → SinkResult)
    (hw : cfg.cooldownSeconds ≤ 0)
    (hs : ∀ n, sink n ≠ SinkResult.transportError) :
    ∀ (es : List RawEvent) (st : HState) (k : Nat),
    st.sent + k = cfg.maxAlertsPerRequest → 0 < k →
    k ≤ es.countP (fun e => admissible cfg e) →
    ∃ st1, runEvents cfg now sink st es = BatchResult.ok st1 ∧
      st1.sent = cfg.maxAlertsPerRequest ∧
      st1.alerts.length = st.alerts.length + k ∧
      st1.received = st.received := by
  intro es
  induction es with
  | nil =>
    intro st k hk hk0 hcount
    simp only [List.countP_nil] at hcount
    omega
  | cons e es ih =>
    intro st k hk hk0 hcount
    simp only [runEvents]
    cases hadm : admissible cfg e with
    | false =>
      obtain ⟨st2, heq, hrec, hsent, halerts, hla, hat⟩ :=
        processEvent_skip cfg now sink st e hadm
          (isCoolingDown_off cfg.cooldownSeconds st.lastAlertAt (extractFeePayer e) now hw)
      rw [heq]
      have hcount2 : k ≤ es.countP (fun e => admissible cfg e) := by
        simp only [List.countP_cons, hadm] at hcount
        simpa using hcount
      obtain ⟨st1, hrun, hsent1, halerts1, hrec1⟩ :=
        ih st2 k (by omega) hk0 hcount2
      exact ⟨st1, hrun, hsent1, by rw [halerts1, halerts], by rw [hrec1, hrec]⟩
    | true =>
      obtain ⟨h1, h2a, h2b, ht⟩ := admissible_decomp cfg e hadm
      have hpost : postToDiscord cfg.webhookUrl (sink st.attempts) = Except.ok () :=
        postToDiscord_ok cfg.webhookUrl (sink st.attempts) (hs st.attempts)
      obtain ⟨st3, heq, hrec, hmt, hmtr, hcl, hfl, hsent, hla, ⟨a, hfp, hal⟩, hat⟩ :=
        processEvent_emit cfg now sink st e h1 h2a h2b
          (isCoolingDown_off cfg.cooldownSeconds st.lastAlertAt (extractFeePayer e) now hw)
          ht hpost
      by_cases hcap : st.sent + 1 ≥ cfg.maxAlertsPerRequest
      · have hk1 : k = 1 := by omega
        rw [heq, if_pos hcap]
        refine ⟨st3, rfl, by omega, ?_, hrec⟩
        rw [hal, List.length_append, hk1]
        simp
      · rw [heq, if_neg hcap]
        have hcount2 : k - 1 ≤ es.countP (fun e => admissible cfg e) := by
          simp [List.countP_cons, hadm] at hcount
          omega
        obtain ⟨st1, hrun, hsent1, halerts1, hrec1⟩ :=
          ih st3 (k - 1) (by omega) (by omega) hcount2
        refine ⟨st1, hrun, hsent1, ?_, by rw [hrec1, hrec]⟩
        rw [halerts1, hal, List.length_append]
        simp
        omega

theorem netSolStep (acc amt : ℚ) (bs bd : Prop) [Decidable bs] [Decidable bd] :
    (if amt = 0 then acc
     else if bd then (if bs then acc - amt else acc) + amt
     else (if bs then acc - amt else acc)) =
    acc + ((if bd then amt else 0) - (if bs then amt else 0)) := by
  split_ifs <;> simp_all
  ring

theorem netSol_fold (wallet : String) :
    ∀ (ts : List NativeTransfer) (acc : ℚ),
    ts.foldl (fun acc t =>
      let src := firstTruthy [t.fromUserAccount, t.fromAccount] ""
      let dst := firstTruthy [t.toUserAccount, t.toAccount] ""
      let amt := t.amount.getD 0
      if amt = 0 then acc
      else
        let acc1 := if src = wallet then acc - amt else acc
        if dst = wallet then acc1 + amt else acc1) acc =
    acc + (ts.map (fun t =>
      let src := firstTruthy [t.fromUserAccount, t.fromAccount] ""
      let dst := firstTruthy [t.toUserAccount, t.toAccount] ""
      let amt := t.amount.getD 0
      (if dst = wallet then amt else 0) - (if src = wallet then amt else 0))).sum := by
  intro ts
  induction ts with
  | nil => intro acc; simp
  | cons t ts ih =>
    intro acc
    simp only [List.foldl_cons, List.map_cons, List.sum_cons]
    rw [ih, netSolStep]
    ring

theorem computeNetSol_eq_spec (e : RawEvent) (wallet : String) :
    computeNetSol e wallet = netSolSpecLamports e wallet / 1000000000 := by
  simp only [computeNetSol, netSolSpecLamports]
  rw [netSol_fold]
  ring_nf

theorem firstMax_cons (l : TokenLeg) (ls : List TokenLeg) :
    firstMax (l :: ls) = mergeOpt (some l) (firstMax ls) := by
  cases h : firstMax ls <;> simp [firstMax, mergeOpt, h]

theorem mergeOpt_none_right (a : Option TokenLeg) : mergeOpt a none = a := by
  cases a <;> rfl

theorem mergeOpt_assoc (a b c : Option TokenLeg) :
    mergeOpt (mergeOpt a b) c = mergeOpt a (mergeOpt b c) := by
  cases a with
  | none => rfl
  | some x =>
    cases b with
    | none => rfl
    | some y =>
      cases c with
      | none => rw [mergeOpt_none_right, mergeOpt_none_right]
      | some z =>
        by_cases h1 : y.amt > x.amt
        · by_cases h2 : z.amt > y.amt
          · have h3 : z.amt > x.amt := lt_trans h1 h2
            simp [mergeOpt, h1, h2, h3]
          · simp [mergeOpt, h1, h2]
        · by_cases h2 : z.amt > y.amt
          · simp [mergeOpt, h1, h2]
          · have h3 : ¬ z.amt > x.amt := by
              push_neg at h1 h2 ⊢
              linarith
            simp [mergeOpt, h1, h2, h3]

theorem mergeOpt_some (acc : Option TokenLeg) (mint : String) (amt : ℚ) :
    (match acc with
     | none => some (⟨mint, amt⟩ : TokenLeg)
     | some b => if amt > b.amt then some ⟨mint, amt⟩ else some b) =
    mergeOpt acc (some ⟨mint, amt⟩) := by
  cases acc <;> simp [mergeOpt]

/-- The body of the `summarizeTokenLegs` fold as a named function. -/
def legStep (wallet : String) (acc : Option TokenLeg × Option TokenLeg)
    (t : TokenTransfer) : Option TokenLeg × Option TokenLeg :=
  let mint := firstTruthy [t.mint, t.tokenMint] ""
  if mint = "" then acc
  else
    let src := firstTruthy [t.fromUserAccount, t.fromTokenAccount, t.fromAccount] ""
    let dst := firstTruthy [t.toUserAccount, t.toTokenAccount, t.toAccount] ""
    let amt := tokenTransferAmt t
    if amt = 0 then acc
    else
      let bIn := if dst = wallet then
          match acc.1 with
          | none => some ⟨mint, amt⟩
          | some b => if amt > b.amt then some ⟨mint, amt⟩ else some b
        else acc.1
      let bOut := if src = wallet then
          match acc.2 with
          | none => some ⟨mint, amt⟩
          | some b => if amt > b.amt then some ⟨mint, amt⟩ else some b
        else acc.2
      (bIn, bOut)

theorem summarizeTokenLegs_foldl (e : RawEvent) (wallet : String) :
    summarizeTokenLegs e wallet =
      (e.tokenTransfers.getD []).foldl (legStep wallet) (none, none) := rfl

theorem legStep_merge (wallet : String) (aIn aOut : Option TokenLeg) (t : TokenTransfer) :
    legStep wallet (aIn, aOut) t =
      ((match inLegProj wallet t with
        | none => aIn
        | some l => mergeOpt aIn (some l)),
       (match outLegProj wallet t with
        | none => aOut
        | some l => mergeOpt aOut (some l))) := by
  by_cases hm : firstTruthy [t.mint, t.tokenMint] "" = ""
  · simp [legStep, inLegProj, outLegProj, hm]
  · by_cases ha : tokenTransferAmt t = 0
    · simp [legStep, inLegProj, outLegProj, hm, ha]
    · by_cases hd : firstTruthy [t.toUserAccount, t.toTokenAccount, t.toAccount] "" = wallet <;>
        by_cases hs : firstTruthy [t.fromUserAccount, t.fromTokenAccount, t.fromAccount] "" = wallet <;>
        simp [legStep, inLegProj, outLegProj, hm, ha, hd, hs, mergeOpt_some]

theorem legsFold (wallet : String) :
    ∀ (ts : List TokenTransfer) (aIn aOut : Option TokenLeg),
    ts.foldl (legStep wallet) (aIn, aOut) =
    (mergeOpt aIn (firstMax (ts.filterMap (inLegProj wallet))),
     mergeOpt aOut (firstMax (ts.filterMap (outLegProj wallet)))) := by
  intro ts
  induction ts with
  | nil =>
    intro aIn aOut
    simp [firstMax, mergeOpt_none_right]
  | cons t ts ih =>
    intro aIn aOut
    rw [List.foldl_cons, legStep_merge]
    simp only [List.filterMap_cons]
    cases hin : inLegProj wallet t <;> cases hout : outLegProj wallet t <;>
      simp [ih, firstMax_cons, ← mergeOpt_assoc]

theorem summarizeTokenLegs_eq_spec (e : RawEvent) (wallet : String) :
    summarizeTokenLegs e wallet =
      (firstMax (inCandidates e wallet), firstMax (outCandidates e wallet)) := by
  rw [summarizeTokenLegs_foldl, legsFold]
  simp [inCandidates, outCandidates, mergeOpt]

theorem band_mono (c : ℚ) (k : Nat) {a b : ℚ} (h : a ≤ b) :
    (if a ≥ c then k else 0) ≤ (if b ≥ c then k else 0) := by
  split_ifs with h1 h2
  · exact le_refl k
  · exact absurd (le_trans h1 h) h2
  · exact Nat.zero_le k
  · exact le_refl 0

theorem band_mono_lt (c : ℚ) (k : Nat) {a b : ℚ} (h : a ≤ b) :
    (if a > c then k else 0) ≤ (if b > c then k else 0) := by
  split_ifs with h1 h2
  · exact le_refl k
  · exact absurd (lt_of_lt_of_le h1 h) h2
  · exact Nat.zero_le k
  · exact le_refl 0

theorem scoreSolBands_mono {a b : ℚ} (h : |a| ≤ |b|) :
    scoreSolBands a ≤ scoreSolBands b := by
  simp only [scoreSolBands]
  exact Nat.add_le_add (Nat.add_le_add (Nat.add_le_add (Nat.add_le_add
    (band_mono _ _ h) (band_mono _ _ h)) (band_mono _ _ h)) (band_mono _ _ h))
    (band_mono _ _ h)

theorem scoreStableBands_mono {a b : ℚ} (h : |a| ≤ |b|) :
    scoreStableBands a ≤ scoreStableBands b := by
  simp only [scoreStableBands]
  exact Nat.add_le_add (Nat.add_le_add (Nat.add_le_add
    (band_mono _ _ h) (band_mono _ _ h)) (band_mono _ _ h)) (band_mono _ _ h)

theorem scoreLegBands_mono {bi1 bo1 bi2 bo2 : Option TokenLeg}
    (h : biggestLegAmt bi1 bo1 ≤ biggestLegAmt bi2 bo2) :
    scoreLegBands bi1 bo1 ≤ scoreLegBands bi2 bo2 := by
  simp only [scoreLegBands]
  exact Nat.add_le_add (Nat.add_le_add (Nat.add_le_add
    (band_mono_lt _ _ h) (band_mono _ _ h)) (band_mono _ _ h)) (band_mono _ _ h)

/-- An event with two inbound fungible transfers of equal amount on
different mints, to check first-seen tie-keeping. -/
def evTie : RawEvent :=
  { emptyEvent with
    type := some "SWAP"
    feePayer := some "W1"
    tokenTransfers :=
      some [⟨some "A", none, some "X", none, none, some "W1", none, none, some 5, none⟩,
        ⟨some "B", none, some "Y", none, none, some "W1", none, none, some 5, none⟩] }

/-! ## Claim theorems -/

/-- C3 (amended): if the cooldown window is ≤ 0, `isCoolingDown` is false;
for a positive window it is true iff `now - last < window`, where a missing
record is read as `last = 0` — so an address with no prior record is
suppressed exactly when `now < window` (and in particular is never
suppressed once `now ≥ window`). -/
theorem claim3_cooldown_gate (cooldownSeconds : Int) (m : List (String × Int))
    (wallet : String) (now : Int) :
    (cooldownSeconds ≤ 0 → isCoolingDown cooldownSeconds m wallet now = false) ∧
    (0 < cooldownSeconds →
      (isCoolingDown cooldownSeconds m wallet now = true ↔
        now - ((mapGet m wallet).getD 0) < cooldownSeconds)) ∧
    (0 < cooldownSeconds → mapGet m wallet = none →
      (isCoolingDown cooldownSeconds m wallet now = true ↔ now < cooldownSeconds)) := by
  refine ⟨fun h => isCoolingDown_off _ _ _ _ h, fun h => ?_, fun h hn => ?_⟩
  · simp [isCoolingDown, not_le.mpr h]
  · simp [isCoolingDown, not_le.mpr h, hn]

/-- Witness for C3: with a window of 30s, a wallet marked at 995 is still
suppressed at 1000, and a window of 0 disables suppression. -/
theorem claim3_cooldown_gate_witness :
    isCoolingDown 0 [] "W1" 100 = false ∧
    isCoolingDown 30 [("W1", 995)] "W1" 1000 = true :=
  ⟨(claim3_cooldown_gate 0 [] "W1" 100).1 (by decide),
    ((claim3_cooldown_gate 30 [("W1", 995)] "W1" 1000).2.1 (by decide)).mpr (by decide)⟩

/-- C3 counterexample: the claim says an address with no prior record is
never suppressed regardless of `now`; but with window 30 and an empty map,
`now = 10` reads the missing record as 0 and `10 - 0 < 30` suppresses. -/
theorem claim3_counterexample : isCoolingDown 30 [] "W1" 10 = true := by decide

theorem computeNetSol_evW1 : computeNetSol evW1 "W1" = -2 := by
  rw [computeNetSol_eq_spec]
  simp [netSolSpecLamports, evW1, emptyEvent, firstTruthy]
  norm_num

theorem scoreEvent_evW1 : scoreEvent (-2) 0 none none = 6 := by
  norm_num [scoreEvent, scoreSolBands, scoreStableBands, scoreLegBands, biggestLegAmt]

theorem processBatch_evW1_ok : processBatch cfgW 1000 sinkOk [] [evW1] =
    BatchResult.ok
      { received := 1, matchedType := 1, matchedTracked := 1, cooled := 0,
        filtered := 0, sent := 1, lastAlertAt := [("W1", 1000)],
        alerts := [⟨"W1", "BUY", -2, 0, none, none, 6, "n/a"⟩], attempts := 1 } := by
  have hfp : extractFeePayer evW1 = "W1" := by decide
  have hnet := computeNetSol_evW1
  have hstab : computeNetStable cfgW.stableMints evW1 "W1" = 0 := by decide
  have hlegs : summarizeTokenLegs evW1 "W1" = (none, none) := by decide
  have h1 : normType evW1 ∈ cfgW.alertTypes := by decide
  have h2 : extractFeePayer evW1 ∈ cfgW.tracked := by decide
  have h2a : ("W1" : String) ∈ cfgW.tracked := by decide
  have hne : ¬ (extractFeePayer evW1 = "") := by decide
  have hscore := scoreEvent_evW1
  have htrig : eventTriggers cfgW (-2) 0 none none = true := by
    simp [eventTriggers, triggersTokenLeg, cfgW]
  have hcool : isCoolingDown cfgW.cooldownSeconds [] "W1" 1000 = false := by decide
  have hneg : (-2 : ℚ) < 0 := by norm_num
  have hsig : extractSignature evW1 = "n/a" := by decide
  have hcap : ¬ (0 + 1 ≥ cfgW.maxAlertsPerRequest) := by decide
  simp [processBatch, runEvents, initState, processEvent, h1, h2, h2a, hne, hfp, hnet,
    hstab, hlegs, hscore, htrig, hcool, hneg, hsig, hcap, markAlert, mapSet,
    postToDiscord, sinkOk, not_lt.mpr (le_of_lt hneg)]

/-- C6: the native delta is the signed sum over native transfers
(`+amount` to the subject, `-amount` from the subject, zero amounts
contributing nothing) divided by 10^9; on the spec scenario event the delta
is -2, the native trigger fires, and the batch emits exactly one BUY alert. -/
theorem claim6_native_delta :
    (∀ (e : RawEvent) (wallet : String),
      computeNetSol e wallet = netSolSpecLamports e wallet / 1000000000) ∧
    computeNetSol evW1 "W1" = -2 ∧
    triggersSol cfgW (computeNetSol evW1 "W1") = true ∧
    processBatch cfgW 1000 sinkOk [] [evW1] =
      BatchResult.ok
        { received := 1, matchedType := 1, matchedTracked := 1, cooled := 0,
          filtered := 0, sent := 1, lastAlertAt := [("W1", 1000)],
          alerts := [⟨"W1", "BUY", -2, 0, none, none, 6, "n/a"⟩], attempts := 1 } := by
  refine ⟨computeNetSol_eq_spec, computeNetSol_evW1, ?_, processBatch_evW1_ok⟩
  rw [computeNetSol_evW1]
  norm_num [triggersSol, cfgW]

/-- C7: `summarizeTokenLegs` returns, for each direction, the first-seen
maximal candidate over all fungible transfers regardless of asset class
(`firstMax` keeps an earlier record unless a strictly larger one appears);
a self-transfer is a candidate on both sides, so the spec scenario yields
the same leg for in and out; a tie keeps the first-seen record. -/
theorem claim7_largest_legs :
    (∀ (e : RawEvent) (wallet : String),
      summarizeTokenLegs e wallet =
        (firstMax (inCandidates e wallet), firstMax (outCandidates e wallet))) ∧
    summarizeTokenLegs evSelf "W1" = (some ⟨"M", 100⟩, some ⟨"M", 100⟩) ∧
    summarizeTokenLegs evTie "W1" = (some ⟨"A", 5⟩, none) := by
  refine ⟨summarizeTokenLegs_eq_spec, by decide, by decide⟩

/-- C8: the significance score (a natural number, hence non-negative) is
monotonically non-decreasing in each input magnitude separately; it is the
sum of three independent per-dimension band ladders; and any non-zero
largest leg contributes at least the flat +1. -/
theorem claim8_score_monotone :
    (∀ (s1 s2 u : ℚ) (bi bo : Option TokenLeg), |s1| ≤ |s2| →
      scoreEvent s1 u bi bo ≤ scoreEvent s2 u bi bo) ∧
    (∀ (s u1 u2 : ℚ) (bi bo : Option TokenLeg), |u1| ≤ |u2| →
      scoreEvent s u1 bi bo ≤ scoreEvent s u2 bi bo) ∧
    (∀ (s u : ℚ) (bi1 bo1 bi2 bo2 : Option TokenLeg),
      biggestLegAmt bi1 bo1 ≤ biggestLegAmt bi2 bo2 →
      scoreEvent s u bi1 bo1 ≤ scoreEvent s u bi2 bo2) ∧
    (∀ (s u : ℚ) (bi bo : Option TokenLeg),
      scoreEvent s u bi bo =
        scoreEvent s 0 none none + scoreEvent 0 u none none +
          scoreEvent 0 0 bi bo) ∧
    (∀ (bi bo : Option TokenLeg), 0 < biggestLegAmt bi bo →
      1 ≤ scoreEvent 0 0 bi bo) := by
  refine ⟨?_, ?_, ?_, ?_, ?_⟩
  · intro s1 s2 u bi bo h
    exact Nat.add_le_add (Nat.add_le_add (scoreSolBands_mono h) (le_refl _)) (le_refl _)
  · intro s u1 u2 bi bo h
    exact Nat.add_le_add (Nat.add_le_add (le_refl _) (scoreStableBands_mono h)) (le_refl _)
  · intro s u bi1 bo1 bi2 bo2 h
    exact Nat.add_le_add (le_refl _) (scoreLegBands_mono h)
  · intro s u bi bo
    have h1 : scoreSolBands 0 = 0 := by norm_num [scoreSolBands]
    have h2 : scoreStableBands 0 = 0 := by norm_num [scoreStableBands]
    have h3 : scoreLegBands none none = 0 := by
      norm_num [scoreLegBands, biggestLegAmt]
    simp [scoreEvent, h1, h2, h3]
  · intro bi bo h
    have h1 : scoreSolBands 0 = 0 := by norm_num [scoreSolBands]
    have h2 : scoreStableBands 0 = 0 := by norm_num [scoreStableBands]
    have hleg : 1 ≤ scoreLegBands bi bo := by
      simp only [scoreLegBands, gt_iff_lt, if_pos h]
      omega
    simp [scoreEvent, h1, h2]
    omega

/-- Witness for C8: concrete instances of each monotonicity hypothesis. -/
theorem claim8_score_monotone_witness :
    scoreEvent 1 0 none none ≤ scoreEvent 2 0 none none ∧
    1 ≤ scoreEvent 0 0 (some ⟨"M", 5⟩) none :=
  ⟨claim8_score_monotone.1 1 2 0 none none (by norm_num),
    claim8_score_monotone.2.2.2.2 (some ⟨"M", 5⟩) none (by decide)⟩

theorem admissible_evW1 : admissible cfgW evW1 = true := by
  simp only [admissible, Bool.and_eq_true, decide_eq_true_eq]
  refine ⟨⟨by decide, by decide, by decide⟩, ?_⟩
  simp [eventTriggers, triggersTokenLeg, cfgW]

theorem processBatch_evW1_cap0 :
    processBatch { cfgW with maxAlertsPerRequest := 0 } 1000 sinkOk [] [evW1] =
      BatchResult.ok
        { received := 1, matchedType := 1, matchedTracked := 1, cooled := 0,
          filtered := 0, sent := 1, lastAlertAt := [("W1", 1000)],
          alerts := [⟨"W1", "BUY", -2, 0, none, none, 6, "n/a"⟩], attempts := 1 } := by
  have hfp : extractFeePayer evW1 = "W1" := by decide
  have hnet := computeNetSol_evW1
  have hstab : computeNetStable ({ cfgW with maxAlertsPerRequest := 0 } : Config).stableMints evW1 "W1" = 0 := by decide
  have hlegs : summarizeTokenLegs evW1 "W1" = (none, none) := by decide
  have h1 : normType evW1 ∈ ({ cfgW with maxAlertsPerRequest := 0 } : Config).alertTypes := by decide
  have h2 : extractFeePayer evW1 ∈ ({ cfgW with maxAlertsPerRequest := 0 } : Config).tracked := by decide
  have h2a : ("W1" : String) ∈ ({ cfgW with maxAlertsPerRequest := 0 } : Config).tracked := by decide
  have hne : ¬ (extractFeePayer evW1 = "") := by decide
  have hscore := scoreEvent_evW1
  have htrig : eventTriggers { cfgW with maxAlertsPerRequest := 0 } (-2) 0 none none = true := by
    simp [eventTriggers, triggersTokenLeg, cfgW]
  have hcool : isCoolingDown ({ cfgW with maxAlertsPerRequest := 0 } : Config).cooldownSeconds [] "W1" 1000 = false := by decide
  have hneg : (-2 : ℚ) < 0 := by norm_num
  have hsig : extractSignature evW1 = "n/a" := by decide
  have hcap : 0 + 1 ≥ ({ cfgW with maxAlertsPerRequest := 0 } : Config).maxAlertsPerRequest := by decide
  simp [processBatch, runEvents, initState, processEvent, h1, h2, h2a, hne, hfp, hnet,
    hstab, hlegs, hscore, htrig, hcool, hneg, hsig, hcap, markAlert, mapSet,
    postToDiscord, sinkOk, not_lt.mpr (le_of_lt hneg)]

/-- C1 (amended): when an alert reaches delivery, a non-success HTTP
response is only logged inside `postToDiscord`: the alert still counts as
sent, the cooldown timestamp is still recorded, and the loop continues (or
breaks only for the cap).  A transport error (rejected `fetch`), however,
propagates out of `postToDiscord` to the handler-level catch: the step
aborts the remainder of the batch and the cooldown timestamp is NOT
recorded. -/
theorem claim1_sink_failure (cfg : Config) (now : Int) (sink : Nat → SinkResult)
    (st : HState) (e : RawEvent)
    (hadm : admissible cfg e = true)
    (hcool : isCoolingDown cfg.cooldownSeconds st.lastAlertAt (extractFeePayer e) now = false) :
    (sink st.attempts = SinkResult.httpFail →
      ∃ st3, (processEvent cfg now sink st e = StepResult.next st3 ∨
          processEvent cfg now sink st e = StepResult.stop st3) ∧
        st3.sent = st.sent + 1 ∧
        st3.lastAlertAt = markAlert st.lastAlertAt (extractFeePayer e) now ∧
        (∃ a : Alert, a.feePayer = extractFeePayer e ∧ st3.alerts = st.alerts ++ [a])) ∧
    (cfg.webhookUrl ≠ "" → sink st.attempts = SinkResult.transportError →
      processEvent cfg now sink st e =
        StepResult.aborted { st with
          matchedType := st.matchedType + 1,
          matchedTracked := st.matchedTracked + 1,
          attempts := st.attempts + 1 }) := by
  obtain ⟨h1, h2a, h2b, ht⟩ := admissible_decomp cfg e hadm
  constructor
  · intro hsf
    have hpost : postToDiscord cfg.webhookUrl (sink st.attempts) = Except.ok () := by
      rw [hsf]
      exact postToDiscord_ok _ _ (by simp)
    obtain ⟨st3, heq, hrec, hmt, hmtr, hcl, hfl, hsent, hla, hal, hat⟩ :=
      processEvent_emit cfg now sink st e h1 h2a h2b hcool ht hpost
    by_cases hcap : st.sent + 1 ≥ cfg.maxAlertsPerRequest
    · rw [if_pos hcap] at heq
      exact ⟨st3, Or.inr heq, hsent, hla, hal⟩
    · rw [if_neg hcap] at heq
      exact ⟨st3, Or.inl heq, hsent, hla, hal⟩
  · intro hurl htr
    have hpost : postToDiscord cfg.webhookUrl (sink st.attempts) = Except.error () := by
      rw [htr]
      simp [postToDiscord, hurl]
    exact processEvent_abort cfg now sink st e h1 h2a h2b hcool ht hpost

/-- Witness for C1: on the scenario event with an always-http-failing sink,
the alert is still counted, the cooldown recorded, and the step continues. -/
theorem claim1_sink_failure_witness :
    ∃ st3, (processEvent cfgW 1000 sinkHttpFail (initState [evW1] []) evW1 = StepResult.next st3 ∨
        processEvent cfgW 1000 sinkHttpFail (initState [evW1] []) evW1 = StepResult.stop st3) ∧
      st3.sent = (initState [evW1] []).sent + 1 ∧
      st3.lastAlertAt = markAlert (initState [evW1] []).lastAlertAt (extractFeePayer evW1) 1000 ∧
      (∃ a : Alert, a.feePayer = extractFeePayer evW1 ∧
        st3.alerts = (initState [evW1] []).alerts ++ [a]) :=
  (claim1_sink_failure cfgW 1000 sinkHttpFail (initState [evW1] []) evW1
    admissible_evW1 (by decide)).1 rfl

/-- C1 counterexample: the claim says a transport error is only reported,
cooldown still recorded and the batch continues; but with a transport-error
sink on the scenario batch, the handler aborts with the catch-all error
path, `sent = 0`, no alert is recorded, and the cooldown map stays empty. -/
theorem claim1_counterexample :
    processBatch cfgW 1000 sinkTransport [] [evW1] =
      BatchResult.err
        { received := 1, matchedType := 1, matchedTracked := 1, cooled := 0,
          filtered := 0, sent := 0, lastAlertAt := [], alerts := [], attempts := 1 } := by
  have hfp : extractFeePayer evW1 = "W1" := by decide
  have hnet := computeNetSol_evW1
  have hstab : computeNetStable cfgW.stableMints evW1 "W1" = 0 := by decide
  have hlegs : summarizeTokenLegs evW1 "W1" = (none, none) := by decide
  have h1 : normType evW1 ∈ cfgW.alertTypes := by decide
  have h2 : extractFeePayer evW1 ∈ cfgW.tracked := by decide
  have h2a : ("W1" : String) ∈ cfgW.tracked := by decide
  have hne : ¬ (extractFeePayer evW1 = "") := by decide
  have htrig : eventTriggers cfgW (-2) 0 none none = true := by
    simp [eventTriggers, triggersTokenLeg, cfgW]
  have hcool : isCoolingDown cfgW.cooldownSeconds [] "W1" 1000 = false := by decide
  have hpost : postToDiscord cfgW.webhookUrl SinkResult.transportError = Except.error () := rfl
  simp [processBatch, runEvents, initState, processEvent, h1, h2, h2a, hne, hfp, hnet,
    hstab, hlegs, htrig, hcool, hpost, sinkTransport]

/-- C2 (amended): for a per-batch cap of at least 1 — with cooldown disabled
so that admissibility is state-independent, and a sink that never raises a
transport error — a batch with more admissible events than the cap emits
exactly `cap` alerts; the events after the cap-reaching one are not
examined, but every event of the batch is still reflected in the `received`
counter. -/
theorem claim2_cap (cfg : Config) (now : Int) (sink : Nat → SinkResult)
    (m : List (String × Int)) (events : List RawEvent)
    (hcap : 1 ≤ cfg.maxAlertsPerRequest)
    (hw : cfg.cooldownSeconds ≤ 0)
    (hs : ∀ n, sink n ≠ SinkResult.transportError)
    (hcount : cfg.maxAlertsPerRequest < events.countP (fun e => admissible cfg e)) :
    ∃ st1, processBatch cfg now sink m events = BatchResult.ok st1 ∧
      st1.sent = cfg.maxAlertsPerRequest ∧
      st1.alerts.length = cfg.maxAlertsPerRequest ∧
      st1.received = events.length := by
  obtain ⟨st1, hrun, hsent, hal, hrec⟩ :=
    runEvents_cap cfg now sink hw hs events (initState events m)
      cfg.maxAlertsPerRequest (by simp [initState]) (by omega) (by omega)
  refine ⟨st1, hrun, hsent, ?_, ?_⟩
  · simpa [initState] using hal
  · simpa [initState] using hrec

/-- Witness for C2: cap 1, cooldown off, two admissible scenario events —
exactly one alert is emitted and both events are counted in `received`. -/
theorem claim2_cap_witness :
    ∃ st1, processBatch { cfgW with maxAlertsPerRequest := 1, cooldownSeconds := 0 }
        1000 sinkOk [] [evW1, evW1] = BatchResult.ok st1 ∧
      st1.sent = ({ cfgW with maxAlertsPerRequest := 1, cooldownSeconds := 0 } : Config).maxAlertsPerRequest ∧
      st1.alerts.length = ({ cfgW with maxAlertsPerRequest := 1, cooldownSeconds := 0 } : Config).maxAlertsPerRequest ∧
      st1.received = ([evW1, evW1] : List RawEvent).length := by
  have hadm1 : admissible { cfgW with maxAlertsPerRequest := 1, cooldownSeconds := 0 } evW1 = true := by
    simp only [admissible, Bool.and_eq_true, decide_eq_true_eq]
    refine ⟨⟨by decide, by decide, by decide⟩, ?_⟩
    simp [eventTriggers, triggersTokenLeg, cfgW]
  apply claim2_cap
  · decide
  · decide
  · intro n
    simp [sinkOk]
  · simp [List.countP_cons, hadm1]

/-- C2 counterexample: with cap 0 and one admissible event (more
trigger-worthy events than the cap), one alert is emitted, not zero — the
cap is only checked after an emission. -/
theorem claim2_counterexample :
    processBatch { cfgW with maxAlertsPerRequest := 0 } 1000 sinkOk [] [evW1] =
      BatchResult.ok
        { received := 1, matchedType := 1, matchedTracked := 1, cooled := 0,
          filtered := 0, sent := 1, lastAlertAt := [("W1", 1000)],
          alerts := [⟨"W1", "BUY", -2, 0, none, none, 6, "n/a"⟩], attempts := 1 } ∧
    (1 : Nat) ≠ ({ cfgW with maxAlertsPerRequest := 0 } : Config).maxAlertsPerRequest :=
  ⟨processBatch_evW1_cap0, by decide⟩

/-- C10 (amended): on every batch that completes without a transport-error
abort, `received = |events| ≥ matchedType ≥ matchedTracked`,
`matchedTracked = cooled + filtered + sent`, and `sent` never exceeds
`max cap 1` (with a cap of 0 a single alert can still be emitted, so the
bound is `max cap 1`, not `cap`). -/
theorem claim10_counters (cfg : Config) (now : Int) (sink : Nat → SinkResult)
    (m : List (String × Int)) (events : List RawEvent) (st1 : HState)
    (h : processBatch cfg now sink m events = BatchResult.ok st1) :
    st1.received = events.length ∧
    st1.matchedType ≤ st1.received ∧
    st1.matchedTracked ≤ st1.matchedType ∧
    st1.matchedTracked = st1.cooled + st1.filtered + st1.sent ∧
    st1.sent ≤ max cfg.maxAlertsPerRequest 1 := by
  obtain ⟨⟨hi1, hi2⟩, hrec, hmt, hsent⟩ :=
    runEvents_inv cfg now sink events (initState events m) st1 h
      ⟨by simp [initState], by simp [initState]⟩ (Or.inr rfl)
  have hrec1 : st1.received = events.length := by simpa [initState] using hrec
  have hmt1 : st1.matchedType ≤ 0 + events.length := by simpa [initState] using hmt
  exact ⟨hrec1, by omega, hi1, hi2, hsent⟩

/-- Witness for C10: the counter relations on the completed scenario batch. -/
theorem claim10_counters_witness :
    (HState.mk 1 1 1 0 0 1 [("W1", 1000)]
        [⟨"W1", "BUY", -2, 0, none, none, 6, "n/a"⟩] 1).received =
      ([evW1] : List RawEvent).length ∧
    (HState.mk 1 1 1 0 0 1 [("W1", 1000)]
        [⟨"W1", "BUY", -2, 0, none, none, 6, "n/a"⟩] 1).matchedType ≤
      (HState.mk 1 1 1 0 0 1 [("W1", 1000)]
        [⟨"W1", "BUY", -2, 0, none, none, 6, "n/a"⟩] 1).received ∧
    (HState.mk 1 1 1 0 0 1 [("W1", 1000)]
        [⟨"W1", "BUY", -2, 0, none, none, 6, "n/a"⟩] 1).matchedTracked ≤
      (HState.mk 1 1 1 0 0 1 [("W1", 1000)]
        [⟨"W1", "BUY", -2, 0, none, none, 6, "n/a"⟩] 1).matchedType ∧
    (HState.mk 1 1 1 0 0 1 [("W1", 1000)]
        [⟨"W1", "BUY", -2, 0, none, none, 6, "n/a"⟩] 1).matchedTracked =
      (HState.mk 1 1 1 0 0 1 [("W1", 1000)]
        [⟨"W1", "BUY", -2, 0, none, none, 6, "n/a"⟩] 1).cooled +
      (HState.mk 1 1 1 0 0 1 [("W1", 1000)]
        [⟨"W1", "BUY", -2, 0, none, none, 6, "n/a"⟩] 1).filtered +
      (HState.mk 1 1 1 0 0 1 [("W1", 1000)]
        [⟨"W1", "BUY", -2, 0, none, none, 6, "n/a"⟩] 1).sent ∧
    (HState.mk 1 1 1 0 0 1 [("W1", 1000)]
        [⟨"W1", "BUY", -2, 0, none, none, 6, "n/a"⟩] 1).sent ≤
      max cfgW.maxAlertsPerRequest 1 :=
  claim10_counters cfgW 1000 sinkOk [] [evW1] _ processBatch_evW1_ok

/-- C10 counterexample: with the cap configured to 0 the sent counter of a
completed batch exceeds the cap. -/
theorem claim10_counterexample :
    (processBatch { cfgW with maxAlertsPerRequest := 0 } 1000 sinkOk [] [evW1]).state.sent >
      ({ cfgW with maxAlertsPerRequest := 0 } : Config).maxAlertsPerRequest := by
  rw [processBatch_evW1_cap0]
  decide

/-- C4: admission is the OR of the three independent triggers; a threshold
set to 0 makes its dimension always pass, a positive threshold passes
exactly when the magnitude reaches it (the leg magnitude being
`max(|largestIn|, |largestOut|)`); and — once the type, watch-list and
cooldown gates have passed — the event is counted as filtered and skipped
exactly when all three triggers are false. -/
theorem claim4_triggers (cfg : Config) (now : Int) (sink : Nat → SinkResult)
    (st : HState) (e : RawEvent) (s u : ℚ) (bi bo : Option TokenLeg) :
    (eventTriggers cfg s u bi bo =
      (triggersSol cfg s || triggersStable cfg u || triggersTokenLeg cfg bi bo)) ∧
    (cfg.minSol = 0 → triggersSol cfg s = true) ∧
    (0 < cfg.minSol → (triggersSol cfg s = true ↔ |s| ≥ cfg.minSol)) ∧
    (cfg.minStable = 0 → triggersStable cfg u = true) ∧
    (0 < cfg.minStable → (triggersStable cfg u = true ↔ |u| ≥ cfg.minStable)) ∧
    (cfg.minTokenLeg = 0 → triggersTokenLeg cfg bi bo = true) ∧
    (0 < cfg.minTokenLeg →
      (triggersTokenLeg cfg bi bo = true ↔ biggestLegAmt bi bo ≥ cfg.minTokenLeg)) ∧
    (biggestLegAmt bi bo =
      max (|(bi.map TokenLeg.amt).getD 0|) (|(bo.map TokenLeg.amt).getD 0|)) ∧
    (cfg.alertTypes.contains (normType e) = true →
      extractFeePayer e ≠ "" →
      cfg.tracked.contains (extractFeePayer e) = true →
      isCoolingDown cfg.cooldownSeconds st.lastAlertAt (extractFeePayer e) now = false →
      ((processEvent cfg now sink st e).state.filtered = st.filtered + 1 ↔
        eventTriggers cfg (computeNetSol e (extractFeePayer e))
          (computeNetStable cfg.stableMints e (extractFeePayer e))
          (summarizeTokenLegs e (extractFeePayer e)).1
          (summarizeTokenLegs e (extractFeePayer e)).2 = false)) := by
  refine ⟨rfl, ?_, ?_, ?_, ?_, ?_, ?_, ?_, ?_⟩
  · intro h
    simp [triggersSol, h]
  · intro h
    simp [triggersSol, h]
  · intro h
    simp [triggersStable, h]
  · intro h
    simp [triggersStable, h]
  · intro h
    simp [triggersTokenLeg, h]
  · intro h
    simp [triggersTokenLeg, h]
  · cases bi <;> cases bo <;> simp [biggestLegAmt]
  · intro h1 h2a h2b hc
    constructor
    · intro hf
      by_contra hne
      have ht : eventTriggers cfg (computeNetSol e (extractFeePayer e))
          (computeNetStable cfg.stableMints e (extractFeePayer e))
          (summarizeTokenLegs e (extractFeePayer e)).1
          (summarizeTokenLegs e (extractFeePayer e)).2 = true := by
        cases hx : eventTriggers cfg (computeNetSol e (extractFeePayer e))
          (computeNetStable cfg.stableMints e (extractFeePayer e))
          (summarizeTokenLegs e (extractFeePayer e)).1
          (summarizeTokenLegs e (extractFeePayer e)).2
        · exact absurd hx hne
        · rfl
      cases hp : postToDiscord cfg.webhookUrl (sink st.attempts) with
      | error u =>
        cases u
        rw [processEvent_abort cfg now sink st e h1 h2a h2b hc ht hp] at hf
        simp [StepResult.state] at hf
      | ok u =>
        cases u
        obtain ⟨st3, heq, hrec, hmt, hmtr, hcl, hfl, hsent, hla, hal, hat⟩ :=
          processEvent_emit cfg now sink st e h1 h2a h2b hc ht hp
        rw [heq] at hf
        have hst : (if st.sent + 1 ≥ cfg.maxAlertsPerRequest then StepResult.stop st3
            else StepResult.next st3).state = st3 := by
          split <;> rfl
        rw [hst] at hf
        omega
    · intro ht
      rw [processEvent_filtered cfg now sink st e h1 h2a h2b hc ht]
      rfl

/-- Witness for C4: with the default configuration, a zeroed native
threshold always passes and the 0.25 threshold passes at magnitude 5. -/
theorem claim4_triggers_witness :
    triggersSol { cfgW with minSol := 0 } 5 = true ∧
    (triggersSol cfgW 5 = true ↔ |(5 : ℚ)| ≥ cfgW.minSol) :=
  ⟨(claim4_triggers { cfgW with minSol := 0 } 1000 sinkOk (initState [] []) evW1
      5 0 none none).2.1 rfl,
    (claim4_triggers cfgW 1000 sinkOk (initState [] []) evW1 5 0 none none).2.2.1
      (by norm_num [cfgW])⟩

/-- C5: an actor in cooldown is counted and skipped before trigger
evaluation — the state is unchanged except for the matchedType,
matchedTracked and cooled counters, so nothing is computed, composed or
emitted for it; and whenever the cooldown map changes at all, the step
passed the watch-list, cooldown and trigger gates, appended exactly one
alert for that actor, advanced `sent`, and the timestamp was recorded via
`markAlert` — so recording happens only together with an emission. -/
theorem claim5_gate_order (cfg : Config) (now : Int) (sink : Nat → SinkResult)
    (st : HState) (e : RawEvent) :
    (cfg.alertTypes.contains (normType e) = true →
      extractFeePayer e ≠ "" →
      cfg.tracked.contains (extractFeePayer e) = true →
      isCoolingDown cfg.cooldownSeconds st.lastAlertAt (extractFeePayer e) now = true →
      processEvent cfg now sink st e = StepResult.next { st with
        matchedType := st.matchedType + 1,
        matchedTracked := st.matchedTracked + 1,
        cooled := st.cooled + 1 }) ∧
    ((processEvent cfg now sink st e).state.lastAlertAt ≠ st.lastAlertAt →
      admissible cfg e = true ∧
      isCoolingDown cfg.cooldownSeconds st.lastAlertAt (extractFeePayer e) now = false ∧
      ∃ a : Alert, a.feePayer = extractFeePayer e ∧
        (processEvent cfg now sink st e).state.alerts = st.alerts ++ [a] ∧
        (processEvent cfg now sink st e).state.sent = st.sent + 1 ∧
        (processEvent cfg now sink st e).state.lastAlertAt =
          markAlert st.lastAlertAt (extractFeePayer e) now) := by
  constructor
  · exact processEvent_cooled cfg now sink st e
  · intro hch
    by_cases h1 : cfg.alertTypes.contains (normType e) = true
    · by_cases h2a : extractFeePayer e = ""
      · rw [processEvent_untracked cfg now sink st e h1 (Or.inl h2a)] at hch ⊢
        exact absurd rfl hch
      · by_cases h2b : cfg.tracked.contains (extractFeePayer e) = true
        · by_cases hc : isCoolingDown cfg.cooldownSeconds st.lastAlertAt (extractFeePayer e) now = true
          · rw [processEvent_cooled cfg now sink st e h1 h2a h2b hc] at hch
            exact absurd rfl hch
          · have hc1 : isCoolingDown cfg.cooldownSeconds st.lastAlertAt
                (extractFeePayer e) now = false := by
              cases hb : isCoolingDown cfg.cooldownSeconds st.lastAlertAt
                (extractFeePayer e) now <;> simp_all
            by_cases ht : eventTriggers cfg (computeNetSol e (extractFeePayer e))
                (computeNetStable cfg.stableMints e (extractFeePayer e))
                (summarizeTokenLegs e (extractFeePayer e)).1
                (summarizeTokenLegs e (extractFeePayer e)).2 = true
            · cases hp : postToDiscord cfg.webhookUrl (sink st.attempts) with
              | error u =>
                cases u
                rw [processEvent_abort cfg now sink st e h1 h2a h2b hc1 ht hp] at hch
                exact absurd rfl hch
              | ok u =>
                cases u
                obtain ⟨st3, heq, hrec, hmt, hmtr, hcl, hfl, hsent, hla, hal, hat⟩ :=
                  processEvent_emit cfg now sink st e h1 h2a h2b hc1 ht hp
                have hadm : admissible cfg e = true := by
                  simp only [admissible, Bool.and_eq_true, decide_eq_true_eq]
                  exact ⟨⟨h1, h2a, h2b⟩, ht⟩
                have hst : (processEvent cfg now sink st e).state = st3 := by
                  rw [heq]
                  split <;> rfl
                obtain ⟨a, hafp, halerts⟩ := hal
                exact ⟨hadm, hc1, a, hafp, by rw [hst, halerts], by rw [hst, hsent],
                  by rw [hst, hla]⟩
            · have ht1 : eventTriggers cfg (computeNetSol e (extractFeePayer e))
                  (computeNetStable cfg.stableMints e (extractFeePayer e))
                  (summarizeTokenLegs e (extractFeePayer e)).1
                  (summarizeTokenLegs e (extractFeePayer e)).2 = false := by
                cases hb : eventTriggers cfg (computeNetSol e (extractFeePayer e))
                  (computeNetStable cfg.stableMints e (extractFeePayer e))
                  (summarizeTokenLegs e (extractFeePayer e)).1
                  (summarizeTokenLegs e (extractFeePayer e)).2 <;> simp_all
              rw [processEvent_filtered cfg now sink st e h1 h2a h2b hc1 ht1] at hch
              exact absurd rfl hch
        · have h2b1 : cfg.tracked.contains (extractFeePayer e) = false := by
            cases hb : cfg.tracked.contains (extractFeePayer e) <;> simp_all
          rw [processEvent_untracked cfg now sink st e h1 (Or.inr h2b1)] at hch
          exact absurd rfl hch
    · have h11 : cfg.alertTypes.contains (normType e) = false := by
        cases hb : cfg.alertTypes.contains (normType e) <;> simp_all
      rw [processEvent_type_skip cfg now sink st e h11] at hch
      exact absurd rfl hch

/-- Witness for C5: on the scenario batch state a cooling actor is skipped
with only the cooled counter advanced. -/
theorem claim5_gate_order_witness :
    processEvent cfgW 10 sinkOk (initState [evW1] []) evW1 =
      StepResult.next { initState [evW1] [] with
        matchedType := (initState [evW1] []).matchedType + 1,
        matchedTracked := (initState [evW1] []).matchedTracked + 1,
        cooled := (initState [evW1] []).cooled + 1 } :=
  (claim5_gate_order cfgW 10 sinkOk (initState [evW1] []) evW1).1
    (by decide) (by decide) (by decide) (by decide)

/-- C9: the normalization and accounting functions are total Lean functions
(nothing in the embedding can raise); on an event whose candidate fields
are all absent or empty, actor resolution returns the empty string,
signature resolution returns the "n/a" sentinel, absent or non-list
transfer fields behave as the empty sequence (zero deltas, no legs), and an
event with an empty actor is skipped downstream with no effect beyond the
matchedType counter. -/
theorem claim9_malformed_total (cfg : Config) (now : Int) (sink : Nat → SinkResult)
    (st : HState) (e : RawEvent) (wallet : String) :
    ((e.feePayer = none ∨ e.feePayer = some "") →
      (e.accountDataAccount = none ∨ e.accountDataAccount = some "") →
      (e.firstAccountKey = none ∨ e.firstAccountKey = some "") →
      extractFeePayer e = "") ∧
    ((e.signature = none ∨ e.signature = some "") →
      (e.transactionSignature = none ∨ e.transactionSignature = some "") →
      (e.nestedSignature = none ∨ e.nestedSignature = some "") →
      extractSignature e = "n/a") ∧
    (e.nativeTransfers = none → computeNetSol e wallet = 0) ∧
    (e.tokenTransfers = none → computeNetStable cfg.stableMints e wallet = 0) ∧
    (e.tokenTransfers = none → summarizeTokenLegs e wallet = (none, none)) ∧
    (extractFeePayer e = "" →
      ∃ st1, processEvent cfg now sink st e = StepResult.next st1 ∧
        st1.matchedTracked = st.matchedTracked ∧ st1.cooled = st.cooled ∧
        st1.filtered = st.filtered ∧ st1.sent = st.sent ∧
        st1.alerts = st.alerts ∧ st1.lastAlertAt = st.lastAlertAt) := by
  refine ⟨?_, ?_, ?_, ?_, ?_, ?_⟩
  · rintro (h1 | h1) (h2 | h2) (h3 | h3) <;>
      simp [extractFeePayer, firstTruthy, h1, h2, h3]
  · rintro (h1 | h1) (h2 | h2) (h3 | h3) <;>
      simp [extractSignature, firstTruthy, h1, h2, h3]
  · intro h
    simp [computeNetSol, h]
  · intro h
    simp [computeNetStable, h]
  · intro h
    simp [summarizeTokenLegs, h]
  · intro hfp
    by_cases h1 : cfg.alertTypes.contains (normType e) = true
    · exact ⟨_, processEvent_untracked cfg now sink st e h1 (Or.inl hfp),
        rfl, rfl, rfl, rfl, rfl, rfl⟩
    · have h11 : cfg.alertTypes.contains (normType e) = false := by
        cases hb : cfg.alertTypes.contains (normType e) <;> simp_all
      exact ⟨st, processEvent_type_skip cfg now sink st e h11,
        rfl, rfl, rfl, rfl, rfl, rfl⟩

/-- Witness for C9: the empty event resolves to an empty actor and the
"n/a" signature, contributes zero deltas and no legs, and is skipped with
no counter effect beyond matchedType. -/
theorem claim9_malformed_total_witness :
    extractFeePayer emptyEvent = "" ∧
    extractSignature emptyEvent = "n/a" ∧
    computeNetSol emptyEvent "W1" = 0 ∧
    summarizeTokenLegs emptyEvent "W1" = (none, none) ∧
    (∃ st1, processEvent cfgW 1000 sinkOk (initState [] []) emptyEvent = StepResult.next st1 ∧
      st1.matchedTracked = (initState [] []).matchedTracked ∧
      st1.cooled = (initState [] []).cooled ∧
      st1.filtered = (initState [] []).filtered ∧
      st1.sent = (initState [] []).sent ∧
      st1.alerts = (initState [] []).alerts ∧
      st1.lastAlertAt = (initState [] []).lastAlertAt) := by
  have T := claim9_malformed_total cfgW 1000 sinkOk (initState [] []) emptyEvent "W1"
  exact ⟨T.1 (Or.inl rfl) (Or.inl rfl) (Or.inl rfl),
    T.2.1 (Or.inl rfl) (Or.inl rfl) (Or.inl rfl),
    T.2.2.1 rfl,
    T.2.2.2.2.1 rfl,
    T.2.2.2.2.2 (T.1 (Or.inl rfl) (Or.inl rfl) (Or.inl rfl))⟩
